import Mathlib

set_option maxRecDepth 100000

/-
Verification development for the python-amazon-mws client library
(files `mws/mws.py` and `mws/utils/xml.py`).

The Python source is shallowly embedded: pure functions become Lean
functions, Python dicts become association lists with insert-or-update
semantics, machine-level crypto (SHA-256, HMAC, base64, UTF-8,
percent-encoding) is implemented executably over `Nat` bytes, and
fallible code returns `Except`.  Impure inputs (the UTC timestamp) are
passed explicitly.  Functions of the repository that are referenced by
`mws/mws.py` but whose defining modules are not among the provided
sources (`clean_param_value`, `RequestParameter.to_dict`) are modelled
from the specification and marked as such in their doc comments.
-/

/-! ## Generic list/character helpers -/

/-- Consume the literal `pat` from the front of `cs`; return the remainder,
or `none` when `cs` does not start with `pat`. -/
def afterLit : List Char → List Char → Option (List Char)
  | [], cs => some cs
  | _ :: _, [] => Option.none
  | p :: ps, c :: cs => if p = c then afterLit ps cs else Option.none

/-- Fuel-driven replacement of every (non-overlapping, leftmost) occurrence of
`pat` by `repl`, scanning left to right; mirrors Python `str.replace` for a
non-empty pattern.  The fuel is always instantiated with the length of the
scanned list, which suffices because a match consumes at least one character. -/
def replaceAllF : Nat → List Char → List Char → List Char → List Char
  | 0, _, _, cs => cs
  | f + 1, pat, repl, cs =>
    match cs with
    | [] => []
    | c :: rest =>
      match afterLit pat cs with
      | some rem => repl ++ replaceAllF f pat repl rem
      | Option.none => c :: replaceAllF f pat repl rest

/-- Python `s.replace(pat, repl)` for a non-empty `pat`. -/
def stringReplace (s pat repl : String) : String :=
  String.mk (replaceAllF s.data.length pat.data repl.data s.data)

/-- First-match lookup in an association list; mirrors Python `dict[k]` /
`dict.get(k)` (on the association lists produced by `pyDict` the first
match is the only match). -/
def pyGet {β : Type} : List (String × β) → String → Option β
  | [], _ => Option.none
  | kv :: rest, k => if kv.1 = k then some kv.2 else pyGet rest k

/-- Insert-or-update for association lists: an existing key keeps its
position and receives the new value, a fresh key is appended.  This is
exactly the update semantics of a Python `dict`. -/
def dictInsert {β : Type} : List (String × β) → (String × β) → List (String × β)
  | [], kv => [kv]
  | (k, v) :: rest, kv => if k = kv.1 then (k, kv.2) :: rest else (k, v) :: dictInsert rest kv

/-- Build a Python dict (as an association list) from a list of entries,
later entries overwriting earlier ones; models a Python dict literal. -/
def pyDict {β : Type} (l : List (String × β)) : List (String × β) :=
  l.foldl dictInsert []

/-! ## UTF-8 encoding (Python `str.encode()`) -/

/-- UTF-8 encoding of a single code point. -/
def utf8Char (n : Nat) : List Nat :=
  if n < 128 then [n]
  else if n < 2048 then [192 + n / 64, 128 + n % 64]
  else if n < 65536 then [224 + n / 4096, 128 + (n / 64) % 64, 128 + n % 64]
  else [240 + n / 262144, 128 + (n / 4096) % 64, 128 + (n / 64) % 64, 128 + n % 64]

/-- UTF-8 encoding of a string as a list of bytes. -/
def utf8 (s : String) : List Nat :=
  (s.data.map (fun c => utf8Char c.toNat)).flatten

/-! ## SHA-256 (FIPS 180-4), over `Nat` bytes with explicit `% 2^32` -/

def w32 : Nat := 4294967296

def rotr32 (n x : Nat) : Nat := ((x >>> n) ||| (x <<< (32 - n))) % w32

def chFun (x y z : Nat) : Nat := (x &&& y) ^^^ ((x ^^^ 4294967295) &&& z)

def majFun (x y z : Nat) : Nat := (x &&& y) ^^^ (x &&& z) ^^^ (y &&& z)

def bigSigma0 (x : Nat) : Nat := rotr32 2 x ^^^ rotr32 13 x ^^^ rotr32 22 x

def bigSigma1 (x : Nat) : Nat := rotr32 6 x ^^^ rotr32 11 x ^^^ rotr32 25 x

def smallSigma0 (x : Nat) : Nat := rotr32 7 x ^^^ rotr32 18 x ^^^ (x >>> 3)

def smallSigma1 (x : Nat) : Nat := rotr32 17 x ^^^ rotr32 19 x ^^^ (x >>> 10)

/-- The 64 SHA-256 round constants (FIPS 180-4 §4.2.2, here written in
decimal). -/
def sha256K : List Nat :=
  [1116352408, 1899447441, 3049323471, 3921009573, 961987163, 1508970993,
   2453635748, 2870763221, 3624381080, 310598401, 607225278, 1426881987,
   1925078388, 2162078206, 2614888103, 3248222580, 3835390401, 4022224774,
   264347078, 604807628, 770255983, 1249150122, 1555081692, 1996064986,
   2554220882, 2821834349, 2952996808, 3210313671, 3336571891, 3584528711,
   113926993, 338241895, 666307205, 773529912, 1294757372, 1396182291,
   1695183700, 1986661051, 2177026350, 2456956037, 2730485921, 2820302411,
   3259730800, 3345764771, 3516065817, 3600352804, 4094571909, 275423344,
   430227734, 506948616, 659060556, 883997877, 958139571, 1322822218,
   1537002063, 1747873779, 1955562222, 2024104815, 2227730452, 2361852424,
   2428436474, 2756734187, 3204031479, 3329325298]

/-- The SHA-256 initial hash value (FIPS 180-4 §5.3.3, in decimal). -/
def sha256H0 : List Nat :=
  [1779033703, 3144134277, 1013904242, 2773480762, 1359893119, 2600822924,
   528734635, 1541459225]

/-- Big-endian 32-bit words from bytes. -/
def toWords : List Nat → List Nat
  | b0 :: b1 :: b2 :: b3 :: rest => (((b0 * 256 + b1) * 256 + b2) * 256 + b3) :: toWords rest
  | _ => []

/-- Message-schedule extension: one step appends the next word. -/
def extendW : Nat → List Nat → List Nat
  | 0, w => w
  | f + 1, w =>
    let n := w.length
    extendW f (w ++ [(w.getD (n - 16) 0 + smallSigma0 (w.getD (n - 15) 0) +
                      w.getD (n - 7) 0 + smallSigma1 (w.getD (n - 2) 0)) % w32])

/-- One SHA-256 compression round on the eight-word working state. -/
def round32 (st : List Nat) (kw : Nat × Nat) : List Nat :=
  match st with
  | a :: b :: c :: d :: e :: f :: g :: h :: _ =>
    let t1 := (h + bigSigma1 e + chFun e f g + kw.1 + kw.2) % w32
    let t2 := (bigSigma0 a + majFun a b c) % w32
    [(t1 + t2) % w32, a, b, c, (d + t1) % w32, e, f, g]
  | _ => st

/-- Process one 64-byte block against the running hash value. -/
def processBlock (h block : List Nat) : List Nat :=
  let w := extendW 48 (toWords block)
  let fin := (sha256K.zip w).foldl round32 h
  List.zipWith (fun a b => (a + b) % w32) h fin

/-- Fold over all 64-byte blocks (fuel-driven; the fuel is the byte count). -/
def sha256Blocks : Nat → List Nat → List Nat → List Nat
  | 0, h, _ => h
  | _ + 1, h, [] => h
  | f + 1, h, bytes => sha256Blocks f (processBlock h (bytes.take 64)) (bytes.drop 64)

/-- Big-endian byte serializations. -/
def be32 (n : Nat) : List Nat := [(n >>> 24) % 256, (n >>> 16) % 256, (n >>> 8) % 256, n % 256]

def be64 (n : Nat) : List Nat :=
  [(n >>> 56) % 256, (n >>> 48) % 256, (n >>> 40) % 256, (n >>> 32) % 256,
   (n >>> 24) % 256, (n >>> 16) % 256, (n >>> 8) % 256, n % 256]

/-- SHA-256 padding: `0x80`, zeros to 56 mod 64, then the bit length. -/
def padMessage (msg : List Nat) : List Nat :=
  let z := (120 - ((msg.length + 1) % 64)) % 64
  msg ++ [128] ++ List.replicate z 0 ++ be64 (8 * msg.length)

/-- SHA-256 of a byte list. -/
def sha256 (msg : List Nat) : List Nat :=
  let padded := padMessage msg
  ((sha256Blocks padded.length sha256H0 padded).map be32).flatten

/-- HMAC-SHA256 (RFC 2104) with 64-byte block size, as used by Python
`hmac.new(key, msg, hashlib.sha256)`. -/
def hmacSha256 (key msg : List Nat) : List Nat :=
  let k0 := if 64 < key.length then sha256 key else key
  let kpad := k0 ++ List.replicate (64 - k0.length) 0
  sha256 ((kpad.map (fun b => b ^^^ 92)) ++ sha256 ((kpad.map (fun b => b ^^^ 54)) ++ msg))

/-! ## Base64 (RFC 4648), as `base64.b64encode` -/

def b64Alphabet : List Char :=
  "ABCDEFGHIJKLMNOPQRSTUVWXYZabcdefghijklmnopqrstuvwxyz0123456789+/".data

def b64Char (n : Nat) : Char := b64Alphabet.getD n 'A'

/-- Base64 encoding of a byte list, with `=` padding. -/
def b64Encode : List Nat → List Char
  | b0 :: b1 :: b2 :: rest =>
    b64Char (b0 / 4) :: b64Char ((b0 % 4) * 16 + b1 / 16) ::
    b64Char ((b1 % 16) * 4 + b2 / 64) :: b64Char (b2 % 64) :: b64Encode rest
  | [b0, b1] => [b64Char (b0 / 4), b64Char ((b0 % 4) * 16 + b1 / 16), b64Char ((b1 % 16) * 4), '=']
  | [b0] => [b64Char (b0 / 4), b64Char ((b0 % 4) * 16), '=', '=']
  | [] => []

/-! ## Python values and errors -/

/-- Python values as they occur in MWS request parameters.  A `datetime`
or `date` object is represented by its ISO-8601 rendering, which is the
only aspect of it the library observes. -/
inductive PyValue : Type
  | none : PyValue
  | bool (b : Bool) : PyValue
  | int (n : Int) : PyValue
  | str (s : String) : PyValue
  | dt (iso : String) : PyValue
  | list (xs : List PyValue) : PyValue
  | dict (kvs : List (String × PyValue)) : PyValue

/-- The error kinds this code can raise: the library's own `MWSError`
and the built-in `ValueError` / `TypeError`. -/
inductive PyError : Type
  | mws (msg : String) : PyError
  | valueError (msg : String) : PyError
  | typeError (msg : String) : PyError
deriving DecidableEq

instance {α β : Type} [DecidableEq α] [DecidableEq β] : DecidableEq (Except α β) := fun a b =>
  match a, b with
  | Except.ok x, Except.ok y =>
    if h : x = y then Decidable.isTrue (by rw [h])
    else Decidable.isFalse (fun e => h (Except.ok.inj e))
  | Except.error x, Except.error y =>
    if h : x = y then Decidable.isTrue (by rw [h])
    else Decidable.isFalse (fun e => h (Except.error.inj e))
  | Except.ok _, Except.error _ => Decidable.isFalse (fun e => Except.noConfusion e)
  | Except.error _, Except.ok _ => Decidable.isFalse (fun e => Except.noConfusion e)

/-- Python `str()` of a parameter value.  Within the client this is only
ever applied to already-cleaned (string) values; the rendering of the
composite constructors is abbreviated since no code path observes it. -/
def pyStr : PyValue → String
  | PyValue.none => "None"
  | PyValue.bool b => if b then "True" else "False"
  | PyValue.int n => toString n
  | PyValue.str s => s
  | PyValue.dt iso => iso
  | PyValue.list _ => "[...]"
  | PyValue.dict _ => "\x7b...\x7d"

/-! ## Percent-encoding (`urllib.parse.quote`) -/

/-- The characters `urllib.parse.quote` never encodes. -/
def alwaysSafeChars : List Char :=
  "ABCDEFGHIJKLMNOPQRSTUVWXYZabcdefghijklmnopqrstuvwxyz0123456789_.-~".data

def hexDigitU (n : Nat) : Char := "0123456789ABCDEF".data.getD n '0'

def pctByte (b : Nat) : List Char := ['%', hexDigitU (b / 16), hexDigitU (b % 16)]

/-- Python `urllib.parse.quote(s, safe)`: percent-encode the UTF-8 bytes
of `s`, keeping the always-safe characters and those in `safe` literal. -/
def pyQuote (safe : List Char) (s : String) : String :=
  String.mk (((utf8 s).map (fun b =>
    if Char.ofNat b ∈ alwaysSafeChars ∨ Char.ofNat b ∈ safe then [Char.ofNat b]
    else pctByte b)).flatten)

/-! ## Scalar parameter cleaning -/

/-- Modelled from the spec: `clean_param_value` lives in
`mws.utils.parameters`, a module not among the provided sources.  Per the
specification (§4.5, scalar value cleaning): dates/datetimes render as
ISO-8601, booleans as lower-case "true"/"false", other scalars via their
natural string form, and the result is percent-encoded with `-_.~`
treated as additional safe characters; composite values (mapping or
sequence) are a programming error and fail with an encoding error
describing the offending value.  The failure message is opaque to the
caller (`clean_params` only forwards it). -/
def clean_param_value : PyValue → Except String String
  | PyValue.bool b => Except.ok (pyQuote "-_.~".data (if b then "true" else "false"))
  | PyValue.dt iso => Except.ok (pyQuote "-_.~".data iso)
  | PyValue.dict _ => Except.error "Unable to clean parameter value of unsupported type dict"
  | PyValue.list _ => Except.error "Unable to clean parameter value of unsupported type list"
  | v => Except.ok (pyQuote "-_.~".data (pyStr v))

/-- Is a parameter value kept by `clean_params`?  Mirrors the Python
filter `v is not None and v != ""` (only `None` and the empty string
compare equal to `None` resp. `""` in Python). -/
def keepParam : PyValue → Bool
  | PyValue.none => false
  | PyValue.str s => decide (s ≠ "")
  | _ => true

/-- The cleaning loop of `clean_params`: clean each value in order,
stopping at the first failure (as the Python `for` loop does when
`clean_param_value` raises). -/
def cleanLoop : List (String × PyValue) → Except String (List (String × String))
  | [] => Except.ok []
  | kv :: rest =>
    match clean_param_value kv.2 with
    | Except.error e => Except.error e
    | Except.ok s =>
      match cleanLoop rest with
      | Except.error e => Except.error e
      | Except.ok out => Except.ok ((kv.1, s) :: out)

/-- `mws.mws.clean_params`: silently drop parameters whose value is
`None` or the empty string, then clean every remaining value; a cleaning
failure is re-raised as `MWSError` with the original message. -/
def clean_params (params : List (String × PyValue)) : Except PyError (List (String × String)) :=
  match cleanLoop (params.filter (fun kv => keepParam kv.2)) with
  | Except.ok out => Except.ok out
  | Except.error e => Except.error (PyError.mws e)

/-! ## Request description (`mws.mws.calc_request_description`) -/

/-- Lexicographic (code-point) order on character lists; the order
Python `sorted` uses on strings. -/
def charListLe : List Char → List Char → Bool
  | [], _ => true
  | _ :: _, [] => false
  | a :: as, b :: bs =>
    if a.toNat < b.toNat then true
    else if b.toNat < a.toNat then false
    else charListLe as bs

/-- Code-point lexicographic order on strings, as a Boolean. -/
def strLeB (a b : String) : Bool := charListLe a.data b.data

/-- The sorting relation used for parameter keys. -/
def strLe (a b : String) : Prop := strLeB a b = true

instance : DecidableRel strLe := fun a b => instDecidableEqBool (strLeB a b) true

/-- `mws.mws.calc_request_description`: "key=value" pairs joined by "&",
keys in sorted order (Python `sorted(params.keys())`). -/
def calc_request_description (params : List (String × PyValue)) : String :=
  String.intercalate "&"
    ((List.insertionSort strLe (params.map Prod.fst)).map
      (fun k => k ++ "=" ++ pyStr ((pyGet params k).getD PyValue.none)))

/-! ## Marketplace registry (`mws.mws.Marketplaces`) -/

structure Marketplace where
  code : String
  endpoint : String
  marketplace_id : String
deriving DecidableEq

/-- The 19 members of the `Marketplaces` enumeration, in definition
order (Python `Enum.__members__` lists aliases such as UK too). -/
def marketplaces : List Marketplace :=
  [⟨"AE", "https://mws.amazonservices.ae", "A2VIGQ35RCS4UG"⟩,
   ⟨"AU", "https://mws.amazonservices.com.au", "A39IBJ37TRP1C6"⟩,
   ⟨"BR", "https://mws.amazonservices.com", "A2Q3Y263D00KWC"⟩,
   ⟨"CA", "https://mws.amazonservices.ca", "A2EUQ1WTGCTBG2"⟩,
   ⟨"DE", "https://mws-eu.amazonservices.com", "A1PA6795UKMFR9"⟩,
   ⟨"EG", "https://mws-eu.amazonservices.com", "ARBP9OOSHTCHU"⟩,
   ⟨"ES", "https://mws-eu.amazonservices.com", "A1RKKUPIHCS9HS"⟩,
   ⟨"FR", "https://mws-eu.amazonservices.com", "A13V1IB3VIYZZH"⟩,
   ⟨"GB", "https://mws-eu.amazonservices.com", "A1F83G8C2ARO7P"⟩,
   ⟨"IN", "https://mws.amazonservices.in", "A21TJRUUN4KGV"⟩,
   ⟨"IT", "https://mws-eu.amazonservices.com", "APJ6JRA9NG5V4"⟩,
   ⟨"JP", "https://mws.amazonservices.jp", "A1VC38T7YXB528"⟩,
   ⟨"MX", "https://mws.amazonservices.com.mx", "A1AM78C64UM0Y8"⟩,
   ⟨"NL", "https://mws-eu.amazonservices.com", "A1805IZSGTT6HS"⟩,
   ⟨"SA", "https://mws-eu.amazonservices.com", "A17E79C6D8DWNP"⟩,
   ⟨"SG", "https://mws-fe.amazonservices.com", "A19VAU5U5O7RUS"⟩,
   ⟨"TR", "https://mws-eu.amazonservices.com", "A33AVAJ2PDY3EV"⟩,
   ⟨"UK", "https://mws-eu.amazonservices.com", "A1F83G8C2ARO7P"⟩,
   ⟨"US", "https://mws.amazonservices.com", "ATVPDKIKX0DER"⟩]

/-- `Marketplaces.__members__.keys()`, in definition order. -/
def memberNames : List String := marketplaces.map (fun m => m.code)

/-- `Marketplaces[region]`, when `region in Marketplaces.__members__`. -/
def marketplaceLookup (region : String) : Option Marketplace :=
  marketplaces.find? (fun m => m.code == region)

/-! ## The core client (`mws.mws.MWS`) -/

/-- The class-level configuration constants of an `MWS` (sub)class. -/
structure MWSClassAttrs where
  URI : String
  VERSION : String
  NAMESPACE : String
  NEXT_TOKEN_OPERATIONS : List String
  ACCOUNT_TYPE : String
deriving DecidableEq

/-- The constants defined on the base class `MWS` itself. -/
def baseClassAttrs : MWSClassAttrs := ⟨"/", "2009-01-01", "", [], "SellerId"⟩

/-- A constructed client instance (the attributes `MWS.__init__` sets,
plus the class-level constants the instance inherits). -/
structure MWSClient where
  access_key : String
  secret_key : String
  account_id : String
  auth_token : String
  version : String
  uri : String
  proxy : Option String
  test_request_params : Bool
  domain : String
  account_type : String
  next_token_operations : List String
deriving DecidableEq

/-- `MWS.__init__`: store credentials and options (`uri`/`version` fall
back to the class constants when empty, as Python `x or DEFAULT` does),
resolve the region against the registry, and fail with `MWSError` when
the region is unknown, the message enumerating every member name. -/
def mwsInit (attrs : MWSClassAttrs)
    (access_key secret_key account_id region uri version auth_token : String)
    (proxy : Option String) : Except PyError MWSClient :=
  match marketplaceLookup region with
  | some m =>
    Except.ok ⟨access_key, secret_key, account_id, auth_token,
      (if version = "" then attrs.VERSION else version),
      (if uri = "" then attrs.URI else uri),
      proxy, false, m.endpoint, attrs.ACCOUNT_TYPE, attrs.NEXT_TOKEN_OPERATIONS⟩
  | Option.none =>
    Except.error (PyError.mws ("Incorrect region supplied: " ++ region ++
      ". Must be one of the following: " ++ String.intercalate ", " memberNames))

/-! ## Default parameters (`MWS.get_default_params`) -/

/-- `MWS.get_default_params(action)`.  The fresh UTC timestamp produced
by `utc_timestamp()` is passed in explicitly as `ts`.  The dict literal
is modelled by `pyDict` (later duplicate keys would overwrite earlier
ones, exactly as in Python). -/
def get_default_params (c : MWSClient) (action ts : String) : List (String × PyValue) :=
  let params := pyDict
    [("Action", PyValue.str action),
     ("AWSAccessKeyId", PyValue.str c.access_key),
     (c.account_type, PyValue.str c.account_id),
     ("SignatureVersion", PyValue.str "2"),
     ("Timestamp", PyValue.str ts),
     ("Version", PyValue.str c.version),
     ("SignatureMethod", PyValue.str "HmacSHA256")]
  if c.auth_token ≠ "" then dictInsert params ("MWSAuthToken", PyValue.str c.auth_token)
  else params

/-! ## Request signing (`MWS.calc_signature`) -/

/-- `MWS.calc_signature(method, request_description)`: HMAC-SHA256 with
the secret key over the newline join of the method, the domain with
"https://" replaced away and lower-cased, the uri, and the request
description; the digest is base64-encoded. -/
def calc_signature (c : MWSClient) (method request_description : String) : String :=
  let sig_data := method ++ "\n" ++ (stringReplace c.domain "https://" "").toLower ++
    "\n" ++ c.uri ++ "\n" ++ request_description
  String.mk (b64Encode (hmacSha256 (utf8 c.secret_key) (utf8 sig_data)))

/-- Spec-side description of the host line: the configured domain with
its scheme prefix stripped (the claim's wording), to be compared with
the `replace`-based computation the code performs. -/
def stripScheme (s : String) : String :=
  match afterLit "https://".data s.data with
  | some rest => String.mk rest
  | Option.none => s

/-! ## Request dispatch (`MWS.make_request` and its callers) -/

/-- The keyword arguments `make_request` consults. -/
structure Kwargs where
  result_key : Option String
  extra_headers : List (String × String)
  body : Option String
  timeout : Option Nat
deriving DecidableEq

def defaultKwargs : Kwargs := ⟨Option.none, [], Option.none, Option.none⟩

/-- `MWS.get_proxies()`: the (http, https) proxy pair. -/
def get_proxies (c : MWSClient) : Option String × Option String :=
  match c.proxy with
  | some p => (some ("http://" ++ p), some ("https://" ++ p))
  | Option.none => (Option.none, Option.none)

def mwsVersionString : String := "1.0.0dev14"

/-- The HTTP request `make_request` hands to `requests.request`; the
model of the pipeline stops at this network boundary. -/
structure Dispatch where
  method : String
  url : String
  headers : List (String × String)
  body : String
  timeout : Nat
  proxies : Option String × Option String
deriving DecidableEq

/-- What `make_request` produces before the network is touched: either
the cleaned parameters (test mode) or the dispatched HTTP request. -/
inductive RequestOutcome : Type
  | testParams (params : List (String × String)) : RequestOutcome
  | dispatched (d : Dispatch) : RequestOutcome
deriving DecidableEq

/-- `MWS.make_request(action, extra_data, method, **kwargs)` up to the
network call: merge `extra_data` onto the defaults, clean, and in test
mode return the cleaned parameters; otherwise build the canonical
description, sign it, and assemble the outgoing request.  The fresh UTC
timestamp is passed explicitly as `ts`. -/
def make_request (c : MWSClient) (ts action : String)
    (extra_data : List (String × PyValue)) (method : String) (kw : Kwargs) :
    Except PyError RequestOutcome :=
  let params := extra_data.foldl dictInsert (get_default_params c action ts)
  match clean_params params with
  | Except.error e => Except.error e
  | Except.ok cleaned =>
    if c.test_request_params then Except.ok (RequestOutcome.testParams cleaned)
    else
      let request_description :=
        calc_request_description (cleaned.map (fun kv => (kv.1, PyValue.str kv.2)))
      let signature := calc_signature c method request_description
      let url := c.domain ++ c.uri ++ "?" ++ request_description ++ "&Signature=" ++
        pyQuote ['/'] signature
      let headers := kw.extra_headers.foldl dictInsert
        [("User-Agent", "python-amazon-mws/" ++ mwsVersionString ++ " (Language=Python)")]
      Except.ok (RequestOutcome.dispatched
        ⟨method, url, headers, kw.body.getD "", kw.timeout.getD 300, get_proxies c⟩)

/-- The result key computed on line 228 of `mws/mws.py` once a response
has arrived: `kwargs.get("result_key", extra_data.get("Action") + "Result")`.
Python evaluates the default argument of `dict.get` eagerly, so the
concatenation runs even when a `result_key` keyword was supplied, and
`None + "Result"` (or any non-`str` value on the left) is a `TypeError`. -/
def resultKeyFor (kwResultKey : Option String) (extra_data : List (String × PyValue)) :
    Except PyError String :=
  match pyGet extra_data "Action" with
  | some (PyValue.str a) => Except.ok (kwResultKey.getD (a ++ "Result"))
  | some _ => Except.error (PyError.typeError "unsupported operand type(s) for +")
  | Option.none =>
    Except.error (PyError.typeError "unsupported operand type(s) for +: 'NoneType' and 'str'")

/-- Python call binding for `make_request(self, action, extra_data,
method="GET", **kwargs)`: calling it without one of its two required
positional parameters is a `TypeError` before the body runs. -/
def callMakeRequest (c : MWSClient) (ts : String) (action : Option String)
    (extra_data : Option (List (String × PyValue))) (method : Option String) (kw : Kwargs) :
    Except PyError RequestOutcome :=
  match action, extra_data with
  | some a, some ed => make_request c ts a ed (method.getD "GET") kw
  | Option.none, some _ =>
    Except.error (PyError.typeError "make_request() missing 1 required positional argument: 'action'")
  | some _, Option.none =>
    Except.error (PyError.typeError "make_request() missing 1 required positional argument: 'extra_data'")
  | Option.none, Option.none =>
    Except.error (PyError.typeError
      "make_request() missing 2 required positional arguments: 'action' and 'extra_data'")

/-- `MWS.get_service_status()`: the source (line 276) invokes
`self.make_request(extra_data=dict(Action="GetServiceStatus"))`, passing
`extra_data` by keyword and nothing for the required positional
parameter `action`. -/
def get_service_status (c : MWSClient) (ts : String) : Except PyError RequestOutcome :=
  callMakeRequest c ts Option.none (some [("Action", PyValue.str "GetServiceStatus")])
    Option.none defaultKwargs

/-- `MWS.action_by_next_token(action, next_token)`: reject actions not
listed in `NEXT_TOKEN_OPERATIONS` with `MWSError`; otherwise POST the
"...ByNextToken" action with the token as the only extra parameter. -/
def action_by_next_token (c : MWSClient) (ts action next_token : String) :
    Except PyError RequestOutcome :=
  if action ∉ c.next_token_operations then
    Except.error (PyError.mws (action ++
      " action not listed in this API's NEXT_TOKEN_OPERATIONS. Please refer to documentation."))
  else
    make_request c ts (action ++ "ByNextToken") [("NextToken", PyValue.str next_token)]
      "POST" defaultKwargs

mutual

/-- Modelled from the spec: `RequestParameter(value=parameters).to_dict()`
lives in `mws.utils.parameters`, a module not among the provided
sources.  Per the specification (§4.5, structured parameter builder): a
mapping under key K contributes each member M as `K.M` recursively, a
sequence under key K contributes element I (1-based) as `K.I`
recursively, and a scalar under key K contributes `(K, value)`. -/
def flattenValue : String → PyValue → List (String × PyValue)
  | key, PyValue.dict kvs => flattenEntries key kvs
  | key, PyValue.list xs => flattenItems key 1 xs
  | key, v => [(key, v)]

/-- Modelled from the spec: the mapping case of the structured parameter
builder (see `flattenValue`). -/
def flattenEntries : String → List (String × PyValue) → List (String × PyValue)
  | _, [] => []
  | key, (k, v) :: rest => flattenValue (key ++ "." ++ k) v ++ flattenEntries key rest

/-- Modelled from the spec: the sequence case of the structured
parameter builder, with 1-based indices (see `flattenValue`). -/
def flattenItems : String → Nat → List PyValue → List (String × PyValue)
  | _, _, [] => []
  | key, i, v :: rest => flattenValue (key ++ "." ++ toString i) v ++ flattenItems key (i + 1) rest

end

/-- Root-level flattening of a mapping (each top-level entry becomes its
own key); see `flattenValue`. -/
def flattenTop : List (String × PyValue) → List (String × PyValue)
  | [] => []
  | (k, v) :: rest => flattenValue k v ++ flattenTop rest

/-- `MWS.generic_request(action, parameters, method, **kwargs)`: a
still-default operation path or a non-dict `parameters` argument raises
the built-in `ValueError` (lines 346-357 of `mws/mws.py`); otherwise the
flattened parameters go through `make_request`. -/
def generic_request (c : MWSClient) (ts action : String) (parameters : Option PyValue)
    (method : String) (kw : Kwargs) : Except PyError RequestOutcome :=
  if c.uri = "" ∨ c.uri = "/" then
    Except.error (PyError.valueError ("Cannot send generic request to URI '" ++ c.uri ++
      "'. Please use one of the API classes (`mws.apis.Reports`, `mws.apis.Feeds`, etc.) " ++
      "to initiate this request."))
  else
    match parameters with
    | some (PyValue.dict kvs) => make_request c ts action (flattenTop kvs) method kw
    | _ => Except.error (PyError.valueError "`parameters` must be a dict.")

/-! ## XML namespace stripping (`mws/utils/xml.py`) -/

/-- Scan to just past the next `"` character; `none` when no quote
remains.  Together with `matchQuotedValue` this realizes the regex
fragment `[^"]+"`. -/
def scanClose : List Char → Option (List Char)
  | [] => Option.none
  | c :: cs => if c = '"' then some cs else scanClose cs

/-- The regex fragment `[^"]+"`: at least one non-quote character, then
everything up to and including the closing quote. -/
def matchQuotedValue : List Char → Option (List Char)
  | [] => Option.none
  | c :: cs => if c = '"' then Option.none else scanClose cs

/-- The regex fragment `="[^"]+"`. -/
def matchEqQuoted (cs : List Char) : Option (List Char) :=
  match afterLit "=\"".data cs with
  | some rest => matchQuotedValue rest
  | Option.none => Option.none

/-- The alternative `xmlns(:ns2)?="[^"]+"` at the head of `cs`, with the
greedy optional group tried first and backtracked on failure, exactly as
Python `re` matches it. -/
def matchDecl (cs : List Char) : Option (List Char) :=
  match afterLit "xmlns".data cs with
  | Option.none => Option.none
  | some rest =>
    match afterLit ":ns2".data rest with
    | some rest2 =>
      match matchEqQuoted rest2 with
      | some r => some r
      | Option.none => matchEqQuoted rest
    | Option.none => matchEqQuoted rest

/-- One attempt of the pattern `xmlns(:ns2)?="[^"]+"|(ns2:)|(xml:)` at
the head of `cs`, alternatives in regex order; returns the remainder
after the matched text. -/
def tryMatch (cs : List Char) : Option (List Char) :=
  match matchDecl cs with
  | some r => some r
  | Option.none =>
    match afterLit "ns2:".data cs with
    | some r => some r
    | Option.none => afterLit "xml:".data cs

/-- `re.sub(pattern, "", data)`: scan left to right, deleting each
leftmost match and continuing after it (fuel-driven; fuel = length). -/
def subAllF : Nat → List Char → List Char
  | 0, cs => cs
  | _ + 1, [] => []
  | f + 1, c :: cs =>
    match tryMatch (c :: cs) with
    | some rest => subAllF f rest
    | Option.none => c :: subAllF f cs

/-- `mws.utils.xml.remove_xml_namespaces`. -/
def remove_xml_namespaces (s : String) : String :=
  String.mk (subAllF s.data.length s.data)

/-- Does `pat` occur as a contiguous substring of `cs`? -/
def hasSub (pat cs : List Char) : Bool :=
  cs.tails.any (fun t => pat.isPrefixOf t)

/-! ## Concrete instances used by the witnesses -/

def sigClient : MWSClient :=
  ⟨"AKIAEXAMPLE", "secretkey", "SELLER123", "", "2009-01-01", "/Orders/2011-01-01",
   Option.none, false, "https://mws.amazonservices.com", "SellerId", []⟩

def c2Client : MWSClient :=
  ⟨"AK2", "SK2", "ACC2", "authtok", "2013-09-01", "/Orders/2013-09-01",
   Option.none, false, "https://mws.amazonservices.com", "SellerId", []⟩

def c4Params : List (String × PyValue) :=
  [("ok", PyValue.str "v"), ("drop", PyValue.none), ("empty", PyValue.str ""),
   ("flag", PyValue.bool true)]

def ntClient : MWSClient :=
  ⟨"AK", "SK", "ACC", "", "2013-09-01", "/Orders/2013-09-01", Option.none, false,
   "https://mws.amazonservices.com", "SellerId", ["ListOrders", "ListOrderItems"]⟩

def c6Client : MWSClient :=
  ⟨"AK", "SK", "ACC", "", "2009-01-01", "/Orders/2011-01-01", Option.none, false,
   "https://mws.amazonservices.com", "SellerId", []⟩

def c6BaseClient : MWSClient :=
  ⟨"AK", "SK", "ACC", "", "2009-01-01", "/", Option.none, false,
   "https://mws.amazonservices.com", "SellerId", []⟩

/-- Is the result a raised `MWSError`? -/
def isMwsErrorResult : Except PyError RequestOutcome → Bool
  | Except.error (PyError.mws _) => true
  | _ => false

/-! ## Sanity checks of the crypto primitives -/

/-- Sanity check of the SHA-256 implementation against the FIPS 180-4
test vector for the message "abc". -/
theorem sha256_abc_vector :
    sha256 (utf8 "abc") =
      [0xba, 0x78, 0x16, 0xbf, 0x8f, 0x01, 0xcf, 0xea, 0x41, 0x41, 0x40, 0xde, 0x5d, 0xae, 0x22, 0x23,
       0xb0, 0x03, 0x61, 0xa3, 0x96, 0x17, 0x7a, 0x9c, 0xb4, 0x10, 0xff, 0x61, 0xf2, 0x00, 0x15, 0xad] := by
  decide

/-- Sanity check of HMAC-SHA256 against RFC 4231 test case 2
(key "Jefe", data "what do ya want for nothing?"). -/
theorem hmac_sha256_rfc4231_vector :
    hmacSha256 (utf8 "Jefe") (utf8 "what do ya want for nothing?") =
      [0x5b, 0xdc, 0xc1, 0x46, 0xbf, 0x60, 0x75, 0x4e, 0x6a, 0x04, 0x24, 0x26, 0x08, 0x95, 0x75, 0xc7,
       0x5a, 0x00, 0x3f, 0x08, 0x9d, 0x27, 0x39, 0x83, 0x9d, 0xec, 0x58, 0xb9, 0x64, 0xec, 0x38, 0x43] := by
  decide

/-! ## C10 lemmas: the namespace-stripping scan -/

lemma afterLit_length : ∀ (p cs rest : List Char), afterLit p cs = some rest →
    rest.length + p.length = cs.length
  | [], _, _, h => by cases h; simp
  | _ :: _, [], _, h => by cases h
  | p :: ps, c :: cs, rest, h => by
    simp only [afterLit] at h
    split at h
    · have := afterLit_length ps cs rest h
      simp only [List.length_cons]
      omega
    · cases h

lemma scanClose_length : ∀ (cs rest : List Char), scanClose cs = some rest →
    rest.length < cs.length
  | [], _, h => by cases h
  | c :: cs, rest, h => by
    simp only [scanClose] at h
    split at h
    · cases h
      simp
    · have := scanClose_length cs rest h
      simp only [List.length_cons]
      omega

lemma matchQuotedValue_length {cs rest : List Char} (h : matchQuotedValue cs = some rest) :
    rest.length < cs.length := by
  cases cs with
  | nil => cases h
  | cons c cs =>
    simp only [matchQuotedValue] at h
    split at h
    · cases h
    · have := scanClose_length cs rest h
      simp only [List.length_cons]
      omega

lemma matchEqQuoted_length {cs rest : List Char} (h : matchEqQuoted cs = some rest) :
    rest.length < cs.length := by
  unfold matchEqQuoted at h
  cases ha : afterLit "=\"".data cs with
  | none => rw [ha] at h; cases h
  | some r2 =>
    rw [ha] at h
    have h1 := afterLit_length _ _ _ ha
    have h2 := matchQuotedValue_length h
    have : ("=\"".data).length = 2 := rfl
    omega

lemma matchDecl_length {cs rest : List Char} (h : matchDecl cs = some rest) :
    rest.length < cs.length := by
  unfold matchDecl at h
  cases h5 : afterLit "xmlns".data cs with
  | none => rw [h5] at h; cases h
  | some r1 =>
    simp only [h5] at h
    have l5 := afterLit_length _ _ _ h5
    have e5 : ("xmlns".data).length = 5 := rfl
    cases h4 : afterLit ":ns2".data r1 with
    | none =>
      simp only [h4] at h
      have := matchEqQuoted_length h
      omega
    | some r2 =>
      simp only [h4] at h
      have l4 := afterLit_length _ _ _ h4
      have e4 : (":ns2".data).length = 4 := rfl
      cases hq : matchEqQuoted r2 with
      | some r3 =>
        simp only [hq] at h
        cases h
        have := matchEqQuoted_length hq
        omega
      | none =>
        simp only [hq] at h
        have := matchEqQuoted_length h
        omega

lemma tryMatch_length {cs rest : List Char} (h : tryMatch cs = some rest) :
    rest.length < cs.length := by
  unfold tryMatch at h
  cases hd : matchDecl cs with
  | some r =>
    rw [hd] at h
    cases h
    exact matchDecl_length hd
  | none =>
    rw [hd] at h
    cases hn : afterLit "ns2:".data cs with
    | some r =>
      rw [hn] at h
      cases h
      have := afterLit_length _ _ _ hn
      have e : ("ns2:".data).length = 4 := rfl
      omega
    | none =>
      rw [hn] at h
      have := afterLit_length _ _ _ h
      have e : ("xml:".data).length = 4 := rfl
      omega

lemma subAllF_length_le : ∀ (f : Nat) (cs : List Char), (subAllF f cs).length ≤ cs.length
  | 0, _ => le_refl _
  | _ + 1, [] => by simp [subAllF]
  | f + 1, c :: cs => by
    simp only [subAllF]
    cases ht : tryMatch (c :: cs) with
    | some rest =>
      have h1 := subAllF_length_le f rest
      have h2 := tryMatch_length ht
      simp only [List.length_cons] at h2 ⊢
      omega
    | none =>
      have h1 := subAllF_length_le f cs
      simp only [List.length_cons]
      omega

/-- A scan position whose suffix begins with "xml:" always matches (the
third regex alternative fires there when the first two cannot). -/
lemma tryMatch_xml (t : List Char) : tryMatch ("xml:".data ++ t) = some t := rfl

lemma hasSub_cons (pat : List Char) (c : Char) (cs : List Char) :
    hasSub pat (c :: cs) = (pat.isPrefixOf (c :: cs) || hasSub pat cs) := by
  simp [hasSub, List.tails_cons]

lemma isPrefixOf_exists {pat cs : List Char} (h : pat.isPrefixOf cs = true) :
    ∃ t, cs = pat ++ t := by
  obtain ⟨t, ht⟩ := List.isPrefixOf_iff_prefix.mp h
  exact ⟨t, ht.symm⟩

/-- If the text contains "xml:" anywhere, the scan deletes something. -/
lemma subAllF_hasSub_lt : ∀ (f : Nat) (cs : List Char), cs.length ≤ f →
    hasSub "xml:".data cs = true → (subAllF f cs).length < cs.length := by
  intro f
  induction f with
  | zero =>
    intro cs hle hsub
    rw [List.length_eq_zero.mp (Nat.le_zero.mp hle)] at hsub
    cases hsub
  | succ f ih =>
    intro cs hle hsub
    cases cs with
    | nil => cases hsub
    | cons c cs =>
      simp only [subAllF]
      cases ht : tryMatch (c :: cs) with
      | some rest =>
        have h1 := subAllF_length_le f rest
        have h2 := tryMatch_length ht
        simp only [List.length_cons] at h2 ⊢
        omega
      | none =>
        rw [hasSub_cons] at hsub
        have hnp : ("xml:".data.isPrefixOf (c :: cs)) = false := by
          cases hp : "xml:".data.isPrefixOf (c :: cs) with
          | false => rfl
          | true =>
            obtain ⟨t, htt⟩ := isPrefixOf_exists hp
            rw [htt, tryMatch_xml] at ht
            cases ht
        rw [hnp, Bool.false_or] at hsub
        have := ih cs (by simpa using Nat.le_of_succ_le_succ (by simpa using hle)) hsub
        simp only [List.length_cons]
        omega

/-- If no scan position matches, the scan copies the text unchanged. -/
lemma subAllF_no_match : ∀ (f : Nat) (cs : List Char),
    (∀ t ∈ cs.tails, tryMatch t = Option.none) → subAllF f cs = cs := by
  intro f
  induction f with
  | zero => intro cs _; rfl
  | succ f ih =>
    intro cs h
    cases cs with
    | nil => rfl
    | cons c cs =>
      simp only [subAllF]
      rw [h (c :: cs) (by rw [List.tails_cons]; exact List.mem_cons_self _ _)]
      rw [ih cs (fun t htt => h t (by rw [List.tails_cons]; exact List.mem_cons_of_mem _ htt))]

/-! ## Order lemmas for the key sort -/

lemma char_toNat_inj {a b : Char} (h : a.toNat = b.toNat) : a = b := by
  apply Char.ext
  apply UInt32.ext
  exact h

lemma charListLe_total : ∀ a b : List Char, charListLe a b = true ∨ charListLe b a = true
  | [], _ => Or.inl rfl
  | _ :: _, [] => Or.inr rfl
  | a :: as, b :: bs => by
    by_cases h1 : a.toNat < b.toNat
    · left
      simp [charListLe, h1]
    · by_cases h2 : b.toNat < a.toNat
      · right
        simp [charListLe, h2]
      · rcases charListLe_total as bs with h | h
        · left
          simp [charListLe, h1, h2, h]
        · right
          simp [charListLe, h1, h2, h]

lemma charListLe_trans : ∀ a b c : List Char,
    charListLe a b = true → charListLe b c = true → charListLe a c = true
  | [], _, _, _, _ => rfl
  | _ :: _, [], _, h1, _ => by simp [charListLe] at h1
  | _ :: _, _ :: _, [], _, h2 => by simp [charListLe] at h2
  | a :: as, b :: bs, c :: cs, h1, h2 => by
    simp only [charListLe] at h1 h2 ⊢
    by_cases hab : a.toNat < b.toNat
    · by_cases hbc : b.toNat < c.toNat
      · rw [if_pos (by omega)]
      · by_cases hcb : c.toNat < b.toNat
        · rw [if_neg hbc, if_pos hcb] at h2
          exact Bool.noConfusion h2
        · rw [if_pos (by omega)]
    · by_cases hba : b.toNat < a.toNat
      · rw [if_neg hab, if_pos hba] at h1
        exact Bool.noConfusion h1
      · by_cases hbc : b.toNat < c.toNat
        · rw [if_pos (by omega)]
        · by_cases hcb : c.toNat < b.toNat
          · rw [if_neg hbc, if_pos hcb] at h2
            exact Bool.noConfusion h2
          · rw [if_neg hab, if_neg hba] at h1
            rw [if_neg hbc, if_neg hcb] at h2
            rw [if_neg (by omega : ¬a.toNat < c.toNat),
              if_neg (by omega : ¬c.toNat < a.toNat)]
            exact charListLe_trans as bs cs h1 h2

lemma charListLe_antisymm : ∀ a b : List Char,
    charListLe a b = true → charListLe b a = true → a = b
  | [], [], _, _ => rfl
  | [], _ :: _, _, h2 => by simp [charListLe] at h2
  | _ :: _, [], h1, _ => by simp [charListLe] at h1
  | a :: as, b :: bs, h1, h2 => by
    simp only [charListLe] at h1 h2
    by_cases hab : a.toNat < b.toNat
    · rw [if_neg (by omega), if_pos hab] at h2
      exact Bool.noConfusion h2
    · by_cases hba : b.toNat < a.toNat
      · rw [if_neg hab, if_pos hba] at h1
        exact Bool.noConfusion h1
      · rw [if_neg hab, if_neg hba] at h1
        rw [if_neg hba, if_neg hab] at h2
        have hhead : a = b := char_toNat_inj (by omega)
        rw [hhead, charListLe_antisymm as bs h1 h2]

instance : IsTotal String strLe := ⟨fun a b => charListLe_total a.data b.data⟩

instance : IsTrans String strLe :=
  ⟨fun a b c h1 h2 => charListLe_trans a.data b.data c.data h1 h2⟩

instance : IsAntisymm String strLe := by
  refine ⟨fun a b h1 h2 => ?_⟩
  cases a with
  | mk da =>
  cases b with
  | mk db =>
  exact congrArg String.mk (charListLe_antisymm da db h1 h2)

/-- Looking a key up in an association list with no duplicate keys is
invariant under permutation. -/
lemma pyGet_perm {β : Type} {p q : List (String × β)} (h : p.Perm q) (k : String) :
    (p.map Prod.fst).Nodup → pyGet p k = pyGet q k := by
  induction h with
  | nil => intro _; rfl
  | cons x h ih =>
    intro hn
    simp only [pyGet]
    split
    · rfl
    · refine ih ?_
      rw [List.map_cons] at hn
      exact (List.nodup_cons.mp hn).2
  | swap x y l =>
    intro hn
    rw [List.map_cons, List.map_cons] at hn
    have hxy : y.1 ≠ x.1 := by
      intro e
      exact (List.nodup_cons.mp hn).1 (by rw [e]; exact List.mem_cons_self _ _)
    by_cases hy : y.1 = k <;> by_cases hx : x.1 = k <;>
      simp [pyGet, hy, hx]
    exact absurd (hy.trans hx.symm) hxy
  | trans h1 h2 ih1 ih2 =>
    intro hn
    exact (ih1 hn).trans (ih2 (((h1.map Prod.fst).nodup_iff).mp hn))

/-! ## Registry lemmas -/

lemma marketplaceLookup_isSome (region : String) :
    (marketplaceLookup region).isSome = true ↔ region ∈ memberNames := by
  unfold marketplaceLookup memberNames
  rw [List.find?_isSome]
  constructor
  · rintro ⟨m, hm, hp⟩
    exact List.mem_map.mpr ⟨m, hm, by simpa using hp⟩
  · intro h
    obtain ⟨m, hm, hc⟩ := List.mem_map.mp h
    exact ⟨m, hm, by simp [hc]⟩

lemma marketplaceLookup_eq_none {region : String} (h : region ∉ memberNames) :
    marketplaceLookup region = Option.none := by
  rw [← Option.not_isSome_iff_eq_none]
  simp only [marketplaceLookup_isSome]
  exact h

/-- A successfully constructed client's domain is one of the registry
endpoints. -/
lemma mwsInit_domain_mem {attrs : MWSClassAttrs}
    {ak sk aid region uri ver tok : String} {px : Option String} {c : MWSClient}
    (h : mwsInit attrs ak sk aid region uri ver tok px = Except.ok c) :
    ∃ m ∈ marketplaces, c.domain = m.endpoint := by
  unfold mwsInit at h
  cases hm : marketplaceLookup region with
  | none => rw [hm] at h; cases h
  | some m =>
    rw [hm] at h
    cases h
    exact ⟨m, List.mem_of_find?_eq_some hm, rfl⟩

/-- On every registry endpoint, the code's `replace("https://", "")`
agrees with stripping the scheme prefix once (each endpoint contains the
scheme exactly once, at the front). -/
lemma endpoint_replace_eq_strip : ∀ m ∈ marketplaces,
    stringReplace m.endpoint "https://" "" = stripScheme m.endpoint := by decide

/-! ## C1: the signature computation -/

/-- C1: for every client constructed from a valid region (and any
operation path), `calc_signature(method, request_description)` is the
base64 encoding of HMAC-SHA256 keyed by the client's secret key over the
four newline-joined lines: the method, the domain with its scheme prefix
stripped and lower-cased, the configured uri, and the request
description, in that order. -/
theorem calc_signature_spec (attrs : MWSClassAttrs)
    (ak sk aid region uri ver tok : String) (px : Option String) (c : MWSClient)
    (method rd : String)
    (h : mwsInit attrs ak sk aid region uri ver tok px = Except.ok c) :
    calc_signature c method rd =
      String.mk (b64Encode (hmacSha256 (utf8 c.secret_key)
        (utf8 (method ++ "\n" ++ (stripScheme c.domain).toLower ++ "\n" ++
          c.uri ++ "\n" ++ rd)))) := by
  obtain ⟨m, hm, hd⟩ := mwsInit_domain_mem h
  unfold calc_signature
  rw [hd, endpoint_replace_eq_strip m hm]

/-- Witness for `calc_signature_spec` at a concrete US-region client. -/
theorem calc_signature_spec_witness :
    calc_signature sigClient "POST" "a=1&b=2" =
      String.mk (b64Encode (hmacSha256 (utf8 sigClient.secret_key)
        (utf8 ("POST" ++ "\n" ++ (stripScheme sigClient.domain).toLower ++ "\n" ++
          sigClient.uri ++ "\n" ++ "a=1&b=2")))) :=
  calc_signature_spec baseClassAttrs "AKIAEXAMPLE" "secretkey" "SELLER123" "US"
    "/Orders/2011-01-01" "" "" Option.none sigClient "POST" "a=1&b=2" (by decide)

/-! ## C5: region resolution -/

/-- C5: constructing with region "US" resolves the endpoint
`https://mws.amazonservices.com`; any region outside the registry fails
with `MWSError` whose message enumerates the member names (of which
there are 19, UK and GB both included); construction succeeds exactly on
the member names; and UK and GB resolve to the identical endpoint and
marketplace identifier. -/
theorem region_resolution_spec (attrs : MWSClassAttrs)
    (ak sk aid uri ver tok : String) (px : Option String) :
    ((mwsInit attrs ak sk aid "US" uri ver tok px).map (fun c => c.domain) =
      Except.ok "https://mws.amazonservices.com") ∧
    (∀ region, region ∉ memberNames →
      mwsInit attrs ak sk aid region uri ver tok px =
        Except.error (PyError.mws ("Incorrect region supplied: " ++ region ++
          ". Must be one of the following: " ++ String.intercalate ", " memberNames))) ∧
    memberNames.length = 19 ∧
    (∀ region, (mwsInit attrs ak sk aid region uri ver tok px).isOk = true ↔
      region ∈ memberNames) ∧
    ((marketplaceLookup "UK").map (fun m => (m.endpoint, m.marketplace_id)) =
      (marketplaceLookup "GB").map (fun m => (m.endpoint, m.marketplace_id))) ∧
    ((marketplaceLookup "UK").map (fun m => (m.endpoint, m.marketplace_id)) =
      some ("https://mws-eu.amazonservices.com", "A1F83G8C2ARO7P")) := by
  refine ⟨?_, ?_, by decide, ?_, by decide, by decide⟩
  · have h : marketplaceLookup "US" =
        some ⟨"US", "https://mws.amazonservices.com", "ATVPDKIKX0DER"⟩ := by decide
    simp [mwsInit, h, Except.map]
  · intro region hr
    simp [mwsInit, marketplaceLookup_eq_none hr]
  · intro region
    rw [← marketplaceLookup_isSome]
    unfold mwsInit
    cases marketplaceLookup region <;> simp [Except.isOk, Except.toBool]

/-- Witness for `region_resolution_spec` at concrete inputs. -/
theorem region_resolution_spec_witness :
    (mwsInit baseClassAttrs "a" "s" "acc" "ZZ" "" "" "" Option.none =
      Except.error (PyError.mws ("Incorrect region supplied: ZZ. Must be one of the following: " ++
        String.intercalate ", " memberNames))) ∧
    ((mwsInit baseClassAttrs "a" "s" "acc" "US" "" "" "" Option.none).isOk = true ↔
      "US" ∈ memberNames) :=
  ⟨(region_resolution_spec baseClassAttrs "a" "s" "acc" "" "" "" Option.none).2.1
      "ZZ" (by decide),
   (region_resolution_spec baseClassAttrs "a" "s" "acc" "" "" "" Option.none).2.2.2.1 "US"⟩

/-! ## C3: the canonical request description -/

/-- C3: `calc_request_description` joins the "key=value" pairs with "&",
keys in sorted order: the result is invariant under the mapping's
insertion order, it is the join over a sorted permutation of the keys,
and on `{"foo": 1, "bar": 4, "baz": "potato"}` it is exactly
`"bar=4&baz=potato&foo=1"`. -/
theorem calc_request_description_spec (p q : List (String × PyValue))
    (hn : (p.map Prod.fst).Nodup) (hp : p.Perm q) :
    calc_request_description p = calc_request_description q ∧
    (∃ ks : List String, ks.Perm (p.map Prod.fst) ∧ List.Sorted strLe ks ∧
      calc_request_description p = String.intercalate "&"
        (ks.map (fun k => k ++ "=" ++ pyStr ((pyGet p k).getD PyValue.none)))) ∧
    calc_request_description
      [("foo", PyValue.int 1), ("bar", PyValue.int 4), ("baz", PyValue.str "potato")] =
      "bar=4&baz=potato&foo=1" := by
  refine ⟨?_, ?_, by decide⟩
  · unfold calc_request_description
    have hs : List.insertionSort strLe (p.map Prod.fst) =
        List.insertionSort strLe (q.map Prod.fst) := by
      exact List.eq_of_perm_of_sorted
        ((List.perm_insertionSort strLe _).trans
          ((hp.map Prod.fst).trans (List.perm_insertionSort strLe _).symm))
        (List.sorted_insertionSort strLe _)
        (List.sorted_insertionSort strLe _)
    rw [hs]
    congr 1
    apply List.map_congr_left
    intro k _
    rw [pyGet_perm hp k hn]
  · exact ⟨List.insertionSort strLe (p.map Prod.fst), List.perm_insertionSort strLe _,
      List.sorted_insertionSort strLe _, rfl⟩

/-- Witness for `calc_request_description_spec`: the example parameters
in two different insertion orders produce the same description. -/
theorem calc_request_description_spec_witness :
    calc_request_description
      [("foo", PyValue.int 1), ("bar", PyValue.int 4), ("baz", PyValue.str "potato")] =
    calc_request_description
      [("bar", PyValue.int 4), ("foo", PyValue.int 1), ("baz", PyValue.str "potato")] :=
  (calc_request_description_spec _ _ (by decide)
    (List.Perm.swap ("bar", PyValue.int 4) ("foo", PyValue.int 1)
      [("baz", PyValue.str "potato")])).1

/-! ## C2: the default parameter set -/

/-- C2: for every client whose configured account-type field name does
not collide with one of the six fixed parameter names (in the provided
sources it is always "SellerId"), `get_default_params(action)` holds
exactly the keys Action, AWSAccessKeyId, the account-type field name,
SignatureVersion, Timestamp, Version and SignatureMethod — plus
MWSAuthToken exactly when the auth token is non-empty — with the
documented values, and no other key. -/
theorem get_default_params_spec (c : MWSClient) (action ts : String)
    (h1 : c.account_type ≠ "Action") (h2 : c.account_type ≠ "AWSAccessKeyId")
    (h3 : c.account_type ≠ "SignatureVersion") (h4 : c.account_type ≠ "Timestamp")
    (h5 : c.account_type ≠ "Version") (h6 : c.account_type ≠ "SignatureMethod")
    (h7 : c.account_type ≠ "MWSAuthToken") :
    ((get_default_params c action ts).map Prod.fst =
      ["Action", "AWSAccessKeyId", c.account_type, "SignatureVersion", "Timestamp",
       "Version", "SignatureMethod"] ++
        (if c.auth_token = "" then [] else ["MWSAuthToken"])) ∧
    pyGet (get_default_params c action ts) "Action" = some (PyValue.str action) ∧
    pyGet (get_default_params c action ts) "AWSAccessKeyId" = some (PyValue.str c.access_key) ∧
    pyGet (get_default_params c action ts) c.account_type = some (PyValue.str c.account_id) ∧
    pyGet (get_default_params c action ts) "SignatureVersion" = some (PyValue.str "2") ∧
    pyGet (get_default_params c action ts) "Timestamp" = some (PyValue.str ts) ∧
    pyGet (get_default_params c action ts) "Version" = some (PyValue.str c.version) ∧
    pyGet (get_default_params c action ts) "SignatureMethod" = some (PyValue.str "HmacSHA256") ∧
    pyGet (get_default_params c action ts) "MWSAuthToken" =
      (if c.auth_token = "" then Option.none else some (PyValue.str c.auth_token)) := by
  have e1 := Ne.symm h1
  have e2 := Ne.symm h2
  have e3 := Ne.symm h3
  have e4 := Ne.symm h4
  have e5 := Ne.symm h5
  have e6 := Ne.symm h6
  have e7 := Ne.symm h7
  by_cases hauth : c.auth_token = "" <;>
    simp [get_default_params, pyDict, dictInsert, pyGet, hauth,
      h1, h2, h3, h4, h5, h6, h7, e1, e2, e3, e4, e5, e6, e7]

/-- Witness for `get_default_params_spec` at a concrete client with a
non-empty auth token. -/
theorem get_default_params_spec_witness :
    ((get_default_params c2Client "ListOrders" "2026-10-12T00:00:00").map Prod.fst =
      ["Action", "AWSAccessKeyId", "SellerId", "SignatureVersion", "Timestamp",
       "Version", "SignatureMethod", "MWSAuthToken"]) ∧
    pyGet (get_default_params c2Client "ListOrders" "2026-10-12T00:00:00") "Action" =
      some (PyValue.str "ListOrders") := by
  have h := get_default_params_spec c2Client "ListOrders" "2026-10-12T00:00:00"
    (by decide) (by decide) (by decide) (by decide) (by decide) (by decide) (by decide)
  exact ⟨h.1.trans (by decide), h.2.1⟩

/-! ## C4: request-level parameter cleaning -/

lemma cleanLoop_ok {l : List (String × PyValue)} {out : List (String × String)}
    (h : cleanLoop l = Except.ok out) :
    out.map Prod.fst = l.map Prod.fst ∧
    ∀ kv ∈ l, ∃ s, clean_param_value kv.2 = Except.ok s ∧ (kv.1, s) ∈ out := by
  induction l generalizing out with
  | nil =>
    unfold cleanLoop at h
    cases h
    exact ⟨rfl, by simp⟩
  | cons kv tl ih =>
    unfold cleanLoop at h
    cases hv : clean_param_value kv.2 with
    | error e => rw [hv] at h; cases h
    | ok s =>
      rw [hv] at h
      cases ht : cleanLoop tl with
      | error e => rw [ht] at h; cases h
      | ok out2 =>
        rw [ht] at h
        cases h
        obtain ⟨hm, hall⟩ := ih ht
        refine ⟨by simp [hm], ?_⟩
        intro kv2 hmem
        rcases List.mem_cons.mp hmem with hmem | hmem
        · exact ⟨s, by rw [hmem]; exact hv, by rw [hmem]; exact List.mem_cons_self _ _⟩
        · obtain ⟨s2, hv2, ho2⟩ := hall kv2 hmem
          exact ⟨s2, hv2, List.mem_cons_of_mem _ ho2⟩

lemma cleanLoop_error {l : List (String × PyValue)} {e : String}
    (h : cleanLoop l = Except.error e) :
    ∃ kv ∈ l, clean_param_value kv.2 = Except.error e := by
  induction l with
  | nil => cases h
  | cons kv tl ih =>
    unfold cleanLoop at h
    cases hv : clean_param_value kv.2 with
    | error e2 =>
      rw [hv] at h
      cases h
      exact ⟨kv, List.mem_cons_self _ _, hv⟩
    | ok s =>
      rw [hv] at h
      cases ht : cleanLoop tl with
      | error e2 =>
        rw [ht] at h
        cases h
        obtain ⟨kv2, hm, hv2⟩ := ih ht
        exact ⟨kv2, List.mem_cons_of_mem _ hm, hv2⟩
      | ok out => rw [ht] at h; cases h

/-- C4: `clean_params` removes exactly the parameters whose value is
`None` or the empty string, applies the scalar cleaner to every
remaining value, and converts a cleaning failure into `MWSError`
carrying the original failure message. -/
theorem clean_params_spec (params : List (String × PyValue)) :
    (∀ out, clean_params params = Except.ok out →
      (out.map Prod.fst = (params.filter (fun kv => keepParam kv.2)).map Prod.fst ∧
       ∀ kv ∈ params, keepParam kv.2 = true →
         ∃ s, clean_param_value kv.2 = Except.ok s ∧ (kv.1, s) ∈ out)) ∧
    (∀ e, clean_params params = Except.error e →
      ∃ msg, e = PyError.mws msg ∧
        ∃ kv ∈ params, keepParam kv.2 = true ∧ clean_param_value kv.2 = Except.error msg) ∧
    (∀ v : PyValue, keepParam v = false ↔ (v = PyValue.none ∨ v = PyValue.str "")) := by
  refine ⟨?_, ?_, ?_⟩
  · intro out h
    unfold clean_params at h
    cases hcl : cleanLoop (params.filter (fun kv => keepParam kv.2)) with
    | error e => rw [hcl] at h; cases h
    | ok out2 =>
      rw [hcl] at h
      cases h
      obtain ⟨hm, hall⟩ := cleanLoop_ok hcl
      refine ⟨hm, ?_⟩
      intro kv hmem hkeep
      exact hall kv (List.mem_filter.mpr ⟨hmem, hkeep⟩)
  · intro e h
    unfold clean_params at h
    cases hcl : cleanLoop (params.filter (fun kv => keepParam kv.2)) with
    | error e2 =>
      rw [hcl] at h
      cases h
      obtain ⟨kv, hm, hv⟩ := cleanLoop_error hcl
      obtain ⟨hmem, hkeep⟩ := List.mem_filter.mp hm
      exact ⟨e2, rfl, kv, hmem, hkeep, hv⟩
    | ok out => rw [hcl] at h; cases h
  · intro v
    cases v <;> simp [keepParam]

/-- Witness for `clean_params_spec` at a concrete parameter mapping with
a `None` value, an empty-string value, and a boolean value. -/
theorem clean_params_spec_witness :
    (([("ok", "v"), ("flag", "true")] : List (String × String)).map Prod.fst =
      (c4Params.filter (fun kv => keepParam kv.2)).map Prod.fst) ∧
    (∃ s, clean_param_value (PyValue.bool true) = Except.ok s ∧
      ("flag", s) ∈ ([("ok", "v"), ("flag", "true")] : List (String × String))) := by
  have h := (clean_params_spec c4Params).1 [("ok", "v"), ("flag", "true")] (by decide)
  refine ⟨h.1, h.2 ("flag", PyValue.bool true) ?_ (by decide)⟩
  exact List.mem_cons_of_mem _ (List.mem_cons_of_mem _
    (List.mem_cons_of_mem _ (List.mem_cons_self _ _)))

/-! ## C7: the result key is taken from `extra_data`, not from `action` -/

/-- C7 (code bug): line 228 computes the default result key as
`extra_data.get("Action") + "Result"`.  When `extra_data` carries no
"Action" key this is `None + "Result"`, a `TypeError` — the `action`
argument of `make_request` is never consulted — and when "Action" is
present its value (not the `action` argument) names the result key.
Because Python evaluates `dict.get`'s default eagerly, the failure
occurs even when a `result_key` keyword was supplied. -/
theorem result_key_code_bug :
    (resultKeyFor Option.none [("NextToken", PyValue.str "token123")] =
      Except.error (PyError.typeError "unsupported operand type(s) for +: 'NoneType' and 'str'")) ∧
    (resultKeyFor Option.none [("Action", PyValue.str "Foo")] = Except.ok "FooResult") ∧
    (resultKeyFor (some "Override") [("NextToken", PyValue.str "t")] =
      Except.error (PyError.typeError "unsupported operand type(s) for +: 'NoneType' and 'str'")) :=
  ⟨rfl, rfl, rfl⟩

/-! ## C9: next-token gating -/

/-- C9: an action outside the configured next-token operation set is
rejected with `MWSError` naming the action; a configured action is
dispatched as a POST of "{action}ByNextToken" carrying the token as the
sole extra parameter (and any dispatched request indeed leaves with
method POST). -/
theorem action_by_next_token_spec (c : MWSClient) (ts action token : String) :
    (action ∉ c.next_token_operations →
      action_by_next_token c ts action token =
        Except.error (PyError.mws (action ++
          " action not listed in this API's NEXT_TOKEN_OPERATIONS. Please refer to documentation."))) ∧
    (action ∈ c.next_token_operations →
      action_by_next_token c ts action token =
        make_request c ts (action ++ "ByNextToken") [("NextToken", PyValue.str token)]
          "POST" defaultKwargs) ∧
    (∀ d, make_request c ts (action ++ "ByNextToken") [("NextToken", PyValue.str token)]
        "POST" defaultKwargs = Except.ok (RequestOutcome.dispatched d) → d.method = "POST") := by
  refine ⟨?_, ?_, ?_⟩
  · intro h
    simp only [action_by_next_token, if_pos h]
  · intro h
    simp only [action_by_next_token]
    rw [if_neg]
    simp [h]
  · intro d h
    simp only [make_request] at h
    split at h
    · exact Except.noConfusion h
    · split at h
      · exact RequestOutcome.noConfusion (Except.ok.inj h)
      · cases RequestOutcome.dispatched.inj (Except.ok.inj h)
        rfl

/-- Witness for `action_by_next_token_spec`: a non-member action is
rejected, a member action is forwarded to a POST `make_request`. -/
theorem action_by_next_token_spec_witness :
    (action_by_next_token ntClient "TS" "GetOrder" "tok" =
      Except.error (PyError.mws
        "GetOrder action not listed in this API's NEXT_TOKEN_OPERATIONS. Please refer to documentation.")) ∧
    (action_by_next_token ntClient "TS" "ListOrders" "tok" =
      make_request ntClient "TS" "ListOrdersByNextToken" [("NextToken", PyValue.str "tok")]
        "POST" defaultKwargs) :=
  ⟨(action_by_next_token_spec ntClient "TS" "GetOrder" "tok").1 (by decide),
   (action_by_next_token_spec ntClient "TS" "ListOrders" "tok").2.1 (by decide)⟩

/-! ## C6: `generic_request` argument validation raises `ValueError` -/

/-- C6 counterexample: both validation failures of `generic_request`
(non-dict `parameters`; still-default operation path) raise the built-in
`ValueError`, not the library's `MWSError`, refuting the claim at these
concrete inputs. -/
theorem generic_request_counterexample :
    (generic_request c6Client "TS" "ListOrders" (some (PyValue.str "notadict")) "GET" defaultKwargs =
      Except.error (PyError.valueError "`parameters` must be a dict.")) ∧
    (isMwsErrorResult (generic_request c6Client "TS" "ListOrders" (some (PyValue.str "notadict"))
      "GET" defaultKwargs) = false) ∧
    (generic_request c6BaseClient "TS" "ListOrders" (some (PyValue.dict [])) "GET" defaultKwargs =
      Except.error (PyError.valueError ("Cannot send generic request to URI '/'. " ++
        "Please use one of the API classes (`mws.apis.Reports`, `mws.apis.Feeds`, etc.) " ++
        "to initiate this request."))) ∧
    (isMwsErrorResult (generic_request c6BaseClient "TS" "ListOrders" (some (PyValue.dict []))
      "GET" defaultKwargs) = false) :=
  ⟨rfl, rfl, rfl, rfl⟩

/-- C6 as amended: the two validation failures of `generic_request`
raise the built-in `ValueError` (with the messages shown), not
`MWSError`. -/
theorem generic_request_amended (c : MWSClient) (ts action : String)
    (parameters : Option PyValue) (method : String) (kw : Kwargs) :
    ((c.uri = "" ∨ c.uri = "/") →
      generic_request c ts action parameters method kw =
        Except.error (PyError.valueError ("Cannot send generic request to URI '" ++ c.uri ++
          "'. Please use one of the API classes (`mws.apis.Reports`, `mws.apis.Feeds`, etc.) " ++
          "to initiate this request."))) ∧
    (¬(c.uri = "" ∨ c.uri = "/") → (∀ kvs, parameters ≠ some (PyValue.dict kvs)) →
      generic_request c ts action parameters method kw =
        Except.error (PyError.valueError "`parameters` must be a dict.")) := by
  constructor
  · intro h
    simp only [generic_request, if_pos h]
  · intro h hnd
    simp only [generic_request, if_neg h]

/-- Witness for `generic_request_amended` at concrete inputs. -/
theorem generic_request_amended_witness :
    (generic_request c6BaseClient "TS" "GetOrder" Option.none "GET" defaultKwargs =
      Except.error (PyError.valueError ("Cannot send generic request to URI '/'. " ++
        "Please use one of the API classes (`mws.apis.Reports`, `mws.apis.Feeds`, etc.) " ++
        "to initiate this request."))) ∧
    (generic_request c6Client "TS" "GetOrder" (some (PyValue.int 5)) "GET" defaultKwargs =
      Except.error (PyError.valueError "`parameters` must be a dict.")) :=
  ⟨(generic_request_amended c6BaseClient "TS" "GetOrder" Option.none "GET" defaultKwargs).1
      (Or.inr rfl),
   (generic_request_amended c6Client "TS" "GetOrder" (some (PyValue.int 5)) "GET" defaultKwargs).2
      (by decide) (fun kvs h => PyValue.noConfusion (Option.some.inj h))⟩

/-! ## C8: `get_service_status` omits the required `action` argument -/

/-- C8 (code bug): `get_service_status` calls
`self.make_request(extra_data=dict(Action="GetServiceStatus"))`, leaving
the required positional parameter `action` unbound, so every call raises
`TypeError` before any request is assembled or dispatched. -/
theorem get_service_status_code_bug (c : MWSClient) (ts : String) :
    get_service_status c ts =
      Except.error (PyError.typeError
        "make_request() missing 1 required positional argument: 'action'") := rfl

/-! ## C10: `remove_xml_namespaces` rewrites raw text everywhere -/

/-- C10: `remove_xml_namespaces` deletes the substrings the pattern
`xmlns(:ns2)?="[^"]+"|(ns2:)|(xml:)` matches anywhere in the raw text —
declarations as well as bare "ns2:"/"xml:" prefixes, including inside
character data — and leaves text without any match unchanged; in
particular a document whose character data contains "xml:" is always
altered. -/
theorem remove_xml_namespaces_spec :
    (∀ s : String, hasSub "xml:".data s.data = true →
      (remove_xml_namespaces s).length < s.length) ∧
    (∀ s : String, (∀ t ∈ s.data.tails, tryMatch t = Option.none) →
      remove_xml_namespaces s = s) ∧
    (remove_xml_namespaces "<a xmlns=\"http://x/y\" ns2:id=\"1\">xml:space</a>" =
      "<a  id=\"1\">space</a>") ∧
    (remove_xml_namespaces "<t>data xml:lang here</t>" = "<t>data lang here</t>") := by
  refine ⟨?_, ?_, by decide, by decide⟩
  · intro s hsub
    cases s with
    | mk data => exact subAllF_hasSub_lt data.length data (le_refl _) hsub
  · intro s h
    have := subAllF_no_match s.data.length s.data h
    cases s with
    | mk data => exact congrArg String.mk this

/-- Witness for `remove_xml_namespaces_spec`: a document without any
matching text is returned unchanged; a document with "xml:" in its
character data shrinks. -/
theorem remove_xml_namespaces_spec_witness :
    (remove_xml_namespaces "<a>keep this text</a>" = "<a>keep this text</a>") ∧
    (remove_xml_namespaces "<a>xml:x</a>").length < ("<a>xml:x</a>" : String).length :=
  ⟨remove_xml_namespaces_spec.2.1 "<a>keep this text</a>" (by decide),
   remove_xml_namespaces_spec.1 "<a>xml:x</a>" (by decide)⟩
